import Mathlib

/-!
Shallow embedding of treedlib `get_features.py`.

The module defines a small hierarchy of feature-template classes over an
XML tree.  A template carries a `label` (initially Python `None`), an
`xpath` selector string and an optional n-gram bound `subsets`.  Applying
a template queries the tree with its selector and renders feature strings.

We model an XML tree abstractly as an oracle `Root α := String → List α`
mapping a selector string to the node list that the xpath query returns;
nodes are drawn from an arbitrary type `α` with decidable equality and a
string rendering (Python `str`).  All string fields are built exactly as
the source builds them.
-/

namespace treedlib

/-- Rendering of a Python value that is either `None` or a string, as
`"%s"` formatting would show it: `None` prints as `"None"`. -/
def pyStr : Option String → String
  | none => "None"
  | some s => s

/-- An XML tree abstracted as its xpath-query behaviour: a map from a
selector string to the list of matched nodes, in document order. -/
def Root (α : Type) : Type := String → List α

/-- Fields of the base class `FeatureTemplate` as assigned by
`FeatureTemplate.__init__`: `label` (Python `None` initially), `xpath`
and the optional n-gram bound `subsets`. -/
structure FeatureTemplate where
  label : Option String
  xpath : String
  subsets : Option Nat
deriving DecidableEq, Repr

/-- Base constructor `FeatureTemplate.__init__`: label `None`, xpath
`"//node"`, subsets `None`. -/
def FeatureTemplate.init : FeatureTemplate :=
  ⟨none, "//node", none⟩

/-- The n-gram generator `subsets(x, L)` from the source:
`chain.from_iterable([x[s:s+l+1] for s in range(len(x)-l)] for l in range(min(len(x),L)))`.
The Python slice `x[s:s+l+1]` is `(x.drop s).take (l+1)`. -/
def subsets (x : List α) (L : Nat) : List (List α) :=
  (List.range (min x.length L)).flatMap fun l =>
    (List.range (x.length - l)).map fun s => (x.drop s).take (l + 1)

/-- Modelled from the spec (section on the subsequence generator): for
each length from 1 to min(n, L) in ascending order, emit the contiguous
slice of that length at every starting offset from 0 to n - length, in
ascending offset order. -/
def subsetsSpec (x : List α) (L : Nat) : List (List α) :=
  ((List.range (min x.length L)).map (Nat.succ)).flatMap fun len =>
    (List.range (x.length - len + 1)).map fun s => (x.drop s).take len

/-- Rendering rule `_feat_str`: the string `"%s[%s]" % (label, "_".join(map(str, res_set)))`. -/
def featStr [ToString α] (label : Option String) (res_set : List α) : String :=
  pyStr label ++ "[" ++ String.intercalate "_" (res_set.map toString) ++ "]"

/-- The base `FeatureTemplate.apply`: query the tree with the selector,
optionally pass the node set through `subsets`, and render each resulting
node set as a feature string (the generator yields them in list order). -/
def FeatureTemplate.apply [ToString α] (t : FeatureTemplate) (root : Root α) : List String :=
  let res := root t.xpath
  let res_sets := match t.subsets with
    | none => [res]
    | some L => treedlib.subsets res L
  res_sets.map (featStr t.label)

/-- Constructor of class `Mention`: label `MENTION`, selector
`.//node[@cid='%s'] % str(cid)` (the cid argument is shown already
converted to a string), subsets bound 100. -/
def Mention (cid : String) : FeatureTemplate :=
  ⟨some "MENTION", ".//node[@cid=\x27" ++ cid ++ "\x27]", some 100⟩

/-- The class `Get` stores only the wrapped template object in field `f`. -/
structure Get where
  f : FeatureTemplate
deriving DecidableEq, Repr

/-- Constructor of class `Get`: it mutates the wrapped template `f` in
place, relabelling it to `"%s-%s" % (attrib.upper(), f.label)` and
appending `"/@" ++ attrib` to its selector.  We model the mutation by
returning both the constructed `Get` object and the post-construction
value of the shared reference `f`: every alias of `f` now sees the
second component. -/
def Get.init (f : FeatureTemplate) (attrib : String) : Get × FeatureTemplate :=
  let fNew : FeatureTemplate :=
    ⟨some (attrib.toUpper ++ "-" ++ pyStr f.label), f.xpath ++ "/@" ++ attrib, f.subsets⟩
  (⟨fNew⟩, fNew)

/-- The method `Get.apply`: delegate to the (mutated) wrapped template. -/
def Get.apply [ToString α] (g : Get) (root : Root α) : List String :=
  g.f.apply root

/-- Constructor of class `Left`: label `"LEFT-OF-%s" % f.label`, selector
extended with a preceding-sibling step, subsets bound 3. -/
def Left (f : FeatureTemplate) : FeatureTemplate :=
  ⟨some ("LEFT-OF-" ++ pyStr f.label), f.xpath ++ "/preceding-sibling::node", some 3⟩

/-- Constructor of class `Right`: label `"RIGHT-OF-%s" % f.label`,
selector extended with a following-sibling step, subsets bound 3. -/
def Right (f : FeatureTemplate) : FeatureTemplate :=
  ⟨some ("RIGHT-OF-" ++ pyStr f.label), f.xpath ++ "/following-sibling::node", some 3⟩

/-- Fields of class `Between` as assigned by its constructor. -/
structure Between where
  label : Option String
  xpath : String
  xpath1 : String
  xpath2 : String
  subsets : Option Nat
deriving DecidableEq, Repr

/-- Constructor of class `Between`: label built from both inner labels,
`xpath` is the ancestor-axis suffix, `xpath1`/`xpath2` are the two inner
selectors, subsets `None`. -/
def Between.init (f1 f2 : FeatureTemplate) : Between :=
  ⟨some ("BETWEEN-" ++ pyStr f1.label ++ "-" ++ pyStr f2.label),
   "/ancestor::node", f1.xpath, f2.xpath, none⟩

/-- The first scan loop of `Between.apply`:
`for node in reversed(p1): b1.append(node); if node in shared: break`.
The argument list is already the reversed chain; the node that breaks the
loop is kept (inclusive stop). -/
def loopB1 [DecidableEq α] (shared : List α) : List α → List α
  | [] => []
  | n :: rest => n :: (if n ∈ shared then [] else loopB1 shared rest)

/-- The second scan loop of `Between.apply`:
`for node in reversed(p2): if node in shared: break; b2.append(node)`.
The node that breaks the loop is dropped (exclusive stop). -/
def loopB2 [DecidableEq α] (shared : List α) : List α → List α
  | [] => []
  | n :: rest => if n ∈ shared then [] else n :: loopB2 shared rest

/-- The method `Between.apply`: query both ancestor chains, intersect
them, run the two scan loops over the reversed chains and emit a single
feature string over `b1 + b2[::-1]`. -/
def Between.apply [DecidableEq α] [ToString α] (b : Between) (root : Root α) : List String :=
  let p1 := root (b.xpath1 ++ b.xpath)
  let p2 := root (b.xpath2 ++ b.xpath)
  let shared := p1 ∩ p2
  let b1 := loopB1 shared p1.reverse
  let b2 := loopB2 shared p2.reverse
  [featStr b.label (b1 ++ b2.reverse)]

/-- The set of attribute names assigned on a base `FeatureTemplate`
instance (also `Mention`, `Left`, `Right`) by the time its constructor
completes. -/
def baseFields : List String := ["label", "xpath", "subsets"]

/-- The set of attribute names assigned on a `Between` instance. -/
def betweenFields : List String := ["label", "xpath", "xpath1", "xpath2", "subsets"]

/-- The set of attribute names assigned on a `Get` instance: only `f`.
`Get.__init__` never assigns `label`, `xpath` or `subsets` on itself. -/
def getFields : List String := ["f"]

/-- Python attribute lookup on a modelled instance: reading a name that
was never assigned raises `AttributeError`. -/
def getattrF (fields : List String) (name : String) : Except String Unit :=
  if name ∈ fields then Except.ok () else Except.error ("AttributeError: " ++ name)

/-- The method `FeatureTemplate.__repr__`: the format
`"<%s, XPath='%s', attrib=%s, subsets=%s>"` reads `self.label`,
`self.xpath`, `self.attrib` and `self.subsets` in that order; we model
only which attribute reads succeed, since the first failing read aborts
the call. -/
def reprTemplate (fields : List String) : Except String Unit := do
  let _ ← getattrF fields "label"
  let _ ← getattrF fields "xpath"
  let _ ← getattrF fields "attrib"
  let _ ← getattrF fields "subsets"
  Except.ok ()

/-- Concrete tree oracle for witnesses: the two mention ancestor chains
[0, 1, 3] and [0, 1, 4] share the prefix [0, 1], so node 1 is the lowest
common ancestor. -/
def rootW : Root Nat := fun s =>
  if s = (Mention "1").xpath ++ "/ancestor::node" then [0, 1, 3] else [0, 1, 4]

/-- Concrete tree oracle for witnesses: the two ancestor chains [1, 2]
and [3, 4] are disjoint, the degenerate no-common-ancestor case. -/
def rootW2 : Root Nat := fun s =>
  if s = (Mention "1").xpath ++ "/ancestor::node" then [1, 2] else [3, 4]

/-- Concrete tree oracle for witnesses: every selector matches the two
nodes 10 and 20. -/
def rootM : Root Nat := fun _ => [10, 20]

/-! Helper lemmas. -/

lemma append_ne_empty (a b : String) (h : a ≠ "" ∨ b ≠ "") : a ++ b ≠ "" := by
  intro he
  have hd : a.data ++ b.data = [] := by
    rw [← String.data_append, he]
  rcases h with h1 | h1
  · exact h1 (String.ext (List.append_eq_nil.mp hd).1)
  · exact h1 (String.ext (List.append_eq_nil.mp hd).2)

lemma featStr_nil {α : Type} [ToString α] (lbl : Option String) :
    featStr lbl ([] : List α) = pyStr lbl ++ "[]" := by
  unfold featStr
  have h1 : String.intercalate "_" (List.map toString ([] : List α)) = "" := rfl
  rw [h1, String.append_empty, String.append_assoc]
  rfl

lemma range_map_sum (f : Nat → Nat) (m : Nat) :
    ((List.range m).map f).sum = ∑ l ∈ Finset.range m, f l := by
  induction m with
  | zero => simp
  | succ m ih =>
      rw [List.range_succ, List.map_append, List.sum_append, Finset.sum_range_succ, ih]
      simp

lemma sum_sub_eq_Icc (n m : Nat) (h : m ≤ n) :
    ∑ l ∈ Finset.range m, (n - l) = ∑ l ∈ Finset.Icc 1 m, (n - l + 1) := by
  induction m with
  | zero => simp
  | succ m ih =>
      rw [Finset.sum_range_succ, Finset.sum_Icc_succ_top (by omega), ih (by omega)]
      omega

/-- C2: for a sequence of length n and bound L, `subsets` emits exactly
the contiguous order-preserving slices of lengths 1 .. min(n, L), in
length-major order with ascending offsets (the spec-side enumeration
`subsetsSpec`), Σ_(l=1)^(min(n,L)) (n-l+1) of them in total, and emits
nothing when n = 0 or L = 0. -/
theorem subsets_enumeration {α : Type} (x : List α) (L : Nat) :
    subsets x L = subsetsSpec x L ∧
    (subsets x L).length = ∑ l ∈ Finset.Icc 1 (min x.length L), (x.length - l + 1) ∧
    (x.length = 0 ∨ L = 0 → subsets x L = []) ∧
    (∀ ys ∈ subsets x L, ∃ s len, 1 ≤ len ∧ len ≤ min x.length L ∧ s + len ≤ x.length ∧
       ys = (x.drop s).take len) ∧
    (∀ s len, 1 ≤ len → len ≤ min x.length L → s + len ≤ x.length →
       (x.drop s).take len ∈ subsets x L) := by
  refine ⟨?_, ?_, ?_, ?_, ?_⟩
  · unfold subsets subsetsSpec
    rw [List.flatMap_map, List.flatMap_def, List.flatMap_def]
    congr 1
    apply List.map_congr_left
    intro l hl
    simp only [List.mem_range] at hl
    have h1 : x.length - Nat.succ l + 1 = x.length - l := by omega
    rw [h1]
  · unfold subsets
    rw [List.length_flatMap]
    have h2 : ((List.range (min x.length L)).map
        (List.length ∘ fun l => (List.range (x.length - l)).map
          fun s => (x.drop s).take (l + 1))).sum
        = ((List.range (min x.length L)).map (fun l => x.length - l)).sum := by
      congr 1
      apply List.map_congr_left
      intro l _
      simp
    rw [h2, range_map_sum, sum_sub_eq_Icc _ _ (Nat.min_le_left _ _)]
  · rintro (h | h) <;> simp [subsets, h]
  · intro ys hys
    unfold subsets at hys
    simp only [List.mem_flatMap, List.mem_map, List.mem_range] at hys
    obtain ⟨l, hl, s, hs, rfl⟩ := hys
    exact ⟨s, l + 1, by omega, by omega, by omega, rfl⟩
  · intro s len h1 hlen hsum
    unfold subsets
    simp only [List.mem_flatMap, List.mem_map, List.mem_range]
    refine ⟨len - 1, by omega, s, by omega, ?_⟩
    have h2 : len - 1 + 1 = len := by omega
    rw [h2]

/-- Witness for C2 at a concrete input: the slice of length 1 at offset 1
of [1, 2] is among the emitted subsequences for bound 3. -/
theorem subsets_enumeration_witness :
    (([1, 2] : List Nat).drop 1).take 1 ∈ subsets [1, 2] 3 :=
  (subsets_enumeration [1, 2] 3).2.2.2.2 1 1 (by decide) (by decide) (by decide)

/-- C3: when the selector matches no nodes, `apply` is not an error: with
`subsets` unset it yields exactly one feature rendering the empty group
as `LABEL[]`, and with `subsets` set it yields exactly zero features. -/
theorem apply_empty_selection {α : Type} [ToString α]
    (t : FeatureTemplate) (root : Root α) (h : root t.xpath = []) :
    (t.subsets = none → t.apply root = [pyStr t.label ++ "[]"]) ∧
    (∀ L, t.subsets = some L → t.apply root = []) := by
  constructor
  · intro hs
    unfold FeatureTemplate.apply
    rw [h, hs]
    simp [featStr_nil]
  · intro L hs
    unfold FeatureTemplate.apply
    rw [h, hs]
    simp [subsets]

/-- Witness for C3: the base template on a tree with no matching nodes
yields the single trivial feature. -/
theorem apply_empty_selection_witness :
    FeatureTemplate.apply FeatureTemplate.init (fun _ => ([] : List Nat))
      = [pyStr FeatureTemplate.init.label ++ "[]"] :=
  (apply_empty_selection FeatureTemplate.init (fun _ => ([] : List Nat)) rfl).1 rfl

/-- C9: applying the same template to the same tree twice yields the
identical feature sequence; both the base `apply` and `Between.apply`
depend only on the values their selectors return, so nothing observable
changes between two successive calls. -/
theorem apply_deterministic {α : Type} [DecidableEq α] [ToString α]
    (t : FeatureTemplate) (b : Between) (root1 root2 : Root α) :
    (t.apply root1 = t.apply root1) ∧
    (root1 t.xpath = root2 t.xpath → t.apply root1 = t.apply root2) ∧
    (b.apply root1 = b.apply root1) ∧
    (root1 (b.xpath1 ++ b.xpath) = root2 (b.xpath1 ++ b.xpath) →
     root1 (b.xpath2 ++ b.xpath) = root2 (b.xpath2 ++ b.xpath) →
     b.apply root1 = b.apply root2) := by
  refine ⟨rfl, ?_, rfl, ?_⟩
  · intro h
    unfold FeatureTemplate.apply
    rw [h]
  · intro h1 h2
    unfold Between.apply
    rw [h1, h2]

/-- Witness for C9: two calls on a mention template and a concrete tree
agree. -/
theorem apply_deterministic_witness :
    FeatureTemplate.apply (Mention "5") rootM = FeatureTemplate.apply (Mention "5") rootM :=
  (apply_deterministic (Mention "5") (Between.init (Mention "1") (Mention "2"))
    rootM rootM).2.1 rfl

/-- C10: `__repr__` reads the never-assigned attribute `attrib`, so it
raises `AttributeError` on every instance: directly at `attrib` for the
base class, `Mention`, `Left`, `Right` and `Between`, and already at the
equally never-assigned `label` for `Get`. -/
theorem repr_attribute_error :
    reprTemplate baseFields = Except.error "AttributeError: attrib" ∧
    reprTemplate betweenFields = Except.error "AttributeError: attrib" ∧
    reprTemplate getFields = Except.error "AttributeError: label" ∧
    "attrib" ∉ baseFields ∧ "attrib" ∉ betweenFields ∧ "attrib" ∉ getFields :=
  ⟨rfl, rfl, rfl, by decide, by decide, by decide⟩

/-- C8 counterexample: the base `FeatureTemplate` constructor completes
with `label = None`, which is not a non-empty string. -/
theorem base_label_not_nonempty :
    ¬ ∃ s : String, FeatureTemplate.init.label = some s ∧ s ≠ "" := by
  rintro ⟨s, hs, _⟩
  simp [FeatureTemplate.init] at hs

/-- C8 amended: every variant constructor (`Mention`, `Left`, `Right`,
`Between`, and the template mutated by `Get`) completes with a non-empty
string label and a non-empty selector; the base constructor completes
with a non-empty selector but with `label = None`. -/
theorem constructed_fields_nonempty (f f1 f2 : FeatureTemplate) (cid attrib : String) :
    FeatureTemplate.init.label = none ∧
    FeatureTemplate.init.xpath ≠ "" ∧
    (∃ s, (Mention cid).label = some s ∧ s ≠ "") ∧
    (Mention cid).xpath ≠ "" ∧
    (∃ s, (Left f).label = some s ∧ s ≠ "") ∧
    (Left f).xpath ≠ "" ∧
    (∃ s, (Right f).label = some s ∧ s ≠ "") ∧
    (Right f).xpath ≠ "" ∧
    (∃ s, (Between.init f1 f2).label = some s ∧ s ≠ "") ∧
    (Between.init f1 f2).xpath ≠ "" ∧
    (∃ s, (Get.init f attrib).2.label = some s ∧ s ≠ "") ∧
    (Get.init f attrib).2.xpath ≠ "" := by
  refine ⟨rfl, by decide, ⟨"MENTION", rfl, by decide⟩, ?_, ?_, ?_, ?_, ?_, ?_, ?_, ?_, ?_⟩
  · exact append_ne_empty _ _ (Or.inr (by decide))
  · exact ⟨_, rfl, append_ne_empty _ _ (Or.inl (by decide))⟩
  · exact append_ne_empty _ _ (Or.inr (by decide))
  · exact ⟨_, rfl, append_ne_empty _ _ (Or.inl (by decide))⟩
  · exact append_ne_empty _ _ (Or.inr (by decide))
  · exact ⟨_, rfl, append_ne_empty _ _ (Or.inl (append_ne_empty _ _ (Or.inr (by decide))))⟩
  · show ("/ancestor::node" : String) ≠ ""
    decide
  · exact ⟨_, rfl, append_ne_empty _ _ (Or.inl (append_ne_empty _ _ (Or.inr (by decide))))⟩
  · exact append_ne_empty _ _ (Or.inl (append_ne_empty _ _ (Or.inr (by decide))))

/-- Witness for C8 amended: a concrete mention template has a non-empty
selector. -/
theorem constructed_fields_nonempty_witness :
    (Mention "5").xpath ≠ "" :=
  (constructed_fields_nonempty FeatureTemplate.init FeatureTemplate.init
    FeatureTemplate.init "5" "word").2.2.2.1

lemma mem_subsets_length {α : Type} (x : List α) (L : Nat) (ys : List α)
    (h : ys ∈ subsets x L) : 1 ≤ ys.length ∧ ys.length ≤ min x.length L := by
  unfold subsets at h
  simp only [List.mem_flatMap, List.mem_range, List.mem_map] at h
  obtain ⟨l, hl, s, hs, rfl⟩ := h
  simp only [List.length_take, List.length_drop]
  omega

/-- C5: constructing `Get(f, a)` mutates the shared template `f` at
construction time: its label becomes the upper-cased attribute name
hyphen-joined with the original label, its selector gains the suffix
`/@a`, and `Get.apply` delegates to exactly this mutated template, which
is the very object every other reference to `f` now sees. -/
theorem get_mutates_wrapped {α : Type} [ToString α]
    (f : FeatureTemplate) (attrib s : String) (hl : f.label = some s) (root : Root α) :
    (Get.init f attrib).2.label = some (attrib.toUpper ++ "-" ++ s) ∧
    (Get.init f attrib).2.xpath = f.xpath ++ "/@" ++ attrib ∧
    (Get.init f attrib).1.f = (Get.init f attrib).2 ∧
    (Get.init f attrib).1.apply root = ((Get.init f attrib).2).apply root := by
  refine ⟨?_, rfl, rfl, rfl⟩
  simp [Get.init, pyStr, hl]

/-- Witness for C5: wrapping a concrete mention template relabels and
extends the selector of the shared object. -/
theorem get_mutates_wrapped_witness :
    (Get.init (Mention "5") "word").2.label = some ("word".toUpper ++ "-" ++ "MENTION") :=
  (get_mutates_wrapped (Mention "5") "word" "MENTION" rfl (fun _ => ([] : List Nat))).1

/-- C6: `Left f` and `Right f` are built with label `LEFT-OF-`/`RIGHT-OF-`
prefixed to the inner label, the inner selector extended with a
preceding-sibling/following-sibling step, and subset bound 3; their apply
is the inherited pipeline over that bound, so every emitted n-gram has
length between 1 and min(k, 3) where k is the number of matched
siblings. -/
theorem left_right_construction {α : Type} [ToString α]
    (f : FeatureTemplate) (root : Root α) :
    (Left f).label = some ("LEFT-OF-" ++ pyStr f.label) ∧
    (Left f).xpath = f.xpath ++ "/preceding-sibling::node" ∧
    (Left f).subsets = some 3 ∧
    (Right f).label = some ("RIGHT-OF-" ++ pyStr f.label) ∧
    (Right f).xpath = f.xpath ++ "/following-sibling::node" ∧
    (Right f).subsets = some 3 ∧
    (Left f).apply root = (subsets (root (Left f).xpath) 3).map (featStr (Left f).label) ∧
    (Right f).apply root = (subsets (root (Right f).xpath) 3).map (featStr (Right f).label) ∧
    (∀ ys ∈ subsets (root (Left f).xpath) 3,
       1 ≤ ys.length ∧ ys.length ≤ min (root (Left f).xpath).length 3) ∧
    (∀ ys ∈ subsets (root (Right f).xpath) 3,
       1 ≤ ys.length ∧ ys.length ≤ min (root (Right f).xpath).length 3) := by
  refine ⟨rfl, rfl, rfl, rfl, rfl, rfl, rfl, rfl, ?_, ?_⟩
  · exact fun ys hys => mem_subsets_length _ _ _ hys
  · exact fun ys hys => mem_subsets_length _ _ _ hys

/-- Witness for C6: with two matching siblings every emitted n-gram over
them has length 1 or 2, never 3. -/
theorem left_right_construction_witness :
    (Left (Mention "5")).subsets = some 3 ∧
    (1 ≤ ([10] : List Nat).length ∧
     ([10] : List Nat).length ≤ min (rootM (Left (Mention "5")).xpath).length 3) :=
  ⟨(left_right_construction (Mention "5") rootM).2.2.1,
   (left_right_construction (Mention "5") rootM).2.2.2.2.2.2.2.2.1 [10] (by decide)⟩

/-- C4: `Mention cid` is labelled MENTION with a cid-keyed selector and
subset bound 100, its apply emits the n-grams of the selected node set,
and on a tree whose mention matches exactly two nodes it emits the three
n-gram features, duplicate-free, in length-major order. -/
theorem mention_ngrams (cid : String) (root : Root Nat)
    (hroot : root (Mention cid).xpath = [10, 20]) :
    (Mention cid).label = some "MENTION" ∧
    (Mention cid).xpath = ".//node[@cid=\x27" ++ cid ++ "\x27]" ∧
    (Mention cid).subsets = some 100 ∧
    (∀ (β : Type) [ToString β] (r : Root β),
       (Mention cid).apply r = (subsets (r (Mention cid).xpath) 100).map (featStr (some "MENTION"))) ∧
    (Mention cid).apply root = ["MENTION[10]", "MENTION[20]", "MENTION[10_20]"] ∧
    (["MENTION[10]", "MENTION[20]", "MENTION[10_20]"] : List String).Nodup := by
  refine ⟨rfl, rfl, rfl, fun β _ r => rfl, ?_, by decide⟩
  show (treedlib.subsets (root (Mention cid).xpath) 100).map (featStr (some "MENTION"))
    = ["MENTION[10]", "MENTION[20]", "MENTION[10_20]"]
  rw [hroot]
  rfl

/-- Witness for C4: the concrete two-node tree yields exactly the three
n-gram features. -/
theorem mention_ngrams_witness :
    (Mention "5").apply rootM = ["MENTION[10]", "MENTION[20]", "MENTION[10_20]"] :=
  (mention_ngrams "5" rootM rfl).2.2.2.2.1

lemma loop_first_shared {α : Type} [DecidableEq α] (sh l : List α)
    (h : ∃ a ∈ l, a ∈ sh) :
    ∃ i, i < l.length ∧
      (∀ k, k < i → ∀ a, l[k]? = some a → a ∉ sh) ∧
      (∀ a, l[i]? = some a → a ∈ sh) ∧
      loopB1 sh l = l.take (i + 1) ∧
      loopB2 sh l = l.take i ∧
      (loopB1 sh l).countP (fun a => decide (a ∈ sh)) = 1 ∧
      (loopB2 sh l).countP (fun a => decide (a ∈ sh)) = 0 := by
  induction l with
  | nil => simp at h
  | cons x xs ih =>
    by_cases hx : x ∈ sh
    · refine ⟨0, by simp, fun k hk => absurd hk (by omega), ?_, ?_, ?_, ?_, ?_⟩
      · intro a ha
        simp only [List.getElem?_cons_zero, Option.some.injEq] at ha
        rw [← ha]
        exact hx
      · simp [loopB1, hx]
      · simp [loopB2, hx]
      · simp [loopB1, hx]
      · simp [loopB2, hx]
    · have h2 : ∃ a ∈ xs, a ∈ sh := by
        obtain ⟨a, ha, has⟩ := h
        rcases List.mem_cons.mp ha with rfl | hmem
        · exact absurd has hx
        · exact ⟨a, hmem, has⟩
      obtain ⟨i, hi, hk, hstop, hb1, hb2, hc1, hc2⟩ := ih h2
      refine ⟨i + 1, by simp only [List.length_cons]; omega, ?_, ?_, ?_, ?_, ?_, ?_⟩
      · intro k hklt a ha
        cases k with
        | zero =>
            simp only [List.getElem?_cons_zero, Option.some.injEq] at ha
            rw [← ha]
            exact hx
        | succ k =>
            rw [List.getElem?_cons_succ] at ha
            exact hk k (by omega) a ha
      · intro a ha
        rw [List.getElem?_cons_succ] at ha
        exact hstop a ha
      · simp [loopB1, hx, hb1]
      · simp [loopB2, hx, hb2]
      · simp [loopB1, hx, List.countP_cons, hc1]
      · simp [loopB2, hx, List.countP_cons, hc2]

lemma loopB1_all {α : Type} [DecidableEq α] (sh l : List α) (h : ∀ a ∈ l, a ∉ sh) :
    loopB1 sh l = l := by
  induction l with
  | nil => rfl
  | cons x xs ih =>
      have hx : x ∉ sh := h x (List.mem_cons_self x xs)
      simp [loopB1, hx, ih (fun a ha => h a (List.mem_cons_of_mem x ha))]

lemma loopB2_all {α : Type} [DecidableEq α] (sh l : List α) (h : ∀ a ∈ l, a ∉ sh) :
    loopB2 sh l = l := by
  induction l with
  | nil => rfl
  | cons x xs ih =>
      have hx : x ∉ sh := h x (List.mem_cons_self x xs)
      simp [loopB2, hx, ih (fun a ha => h a (List.mem_cons_of_mem x ha))]

/-- C1: when the two ancestor chains share at least one node,
`Between.apply` emits exactly one feature string over `b1 ++ reverse b2`,
where `b1` is the prefix of the reversed chain `p1` up to and including
its first node shared with `p2` (the LCA), `b2` is the prefix of the
reversed chain `p2` strictly before its first shared node, and the shared
node appears exactly once in the emitted path. -/
theorem between_apply_lca_once {α : Type} [DecidableEq α] [ToString α]
    (f1 f2 : FeatureTemplate) (root : Root α) (p1 p2 : List α)
    (hp1 : p1 = root (f1.xpath ++ "/ancestor::node"))
    (hp2 : p2 = root (f2.xpath ++ "/ancestor::node"))
    (hsh : ∃ a, a ∈ p1 ∧ a ∈ p2) :
    ∃ b1 b2 i j,
      (Between.init f1 f2).apply root
        = [featStr (Between.init f1 f2).label (b1 ++ b2.reverse)] ∧
      i < p1.reverse.length ∧
      b1 = p1.reverse.take (i + 1) ∧
      (∀ k, k < i → ∀ a, p1.reverse[k]? = some a → ¬(a ∈ p1 ∧ a ∈ p2)) ∧
      (∀ a, p1.reverse[i]? = some a → a ∈ p1 ∧ a ∈ p2) ∧
      j < p2.reverse.length ∧
      b2 = p2.reverse.take j ∧
      (∀ k, k < j → ∀ a, p2.reverse[k]? = some a → ¬(a ∈ p1 ∧ a ∈ p2)) ∧
      (∀ a, p2.reverse[j]? = some a → a ∈ p1 ∧ a ∈ p2) ∧
      (b1 ++ b2.reverse).countP (fun a => decide (a ∈ p1 ∧ a ∈ p2)) = 1 := by
  obtain ⟨a0, ha1, ha2⟩ := hsh
  have hmem : a0 ∈ p1 ∩ p2 := List.mem_inter_iff.mpr ⟨ha1, ha2⟩
  have hx1 : ∃ a ∈ p1.reverse, a ∈ p1 ∩ p2 := ⟨a0, List.mem_reverse.mpr ha1, hmem⟩
  have hx2 : ∃ a ∈ p2.reverse, a ∈ p1 ∩ p2 := ⟨a0, List.mem_reverse.mpr ha2, hmem⟩
  obtain ⟨i, hi, hk1, hstop1, hb1, _, hc1, _⟩ := loop_first_shared (p1 ∩ p2) p1.reverse hx1
  obtain ⟨j, hj, hk2, hstop2, _, hb2, _, hc2⟩ := loop_first_shared (p1 ∩ p2) p2.reverse hx2
  refine ⟨loopB1 (p1 ∩ p2) p1.reverse, loopB2 (p1 ∩ p2) p2.reverse, i, j,
    ?_, hi, hb1, ?_, ?_, hj, hb2, ?_, ?_, ?_⟩
  · subst hp1
    subst hp2
    rfl
  · intro k hk a ha
    simpa [List.mem_inter_iff] using hk1 k hk a ha
  · intro a ha
    simpa [List.mem_inter_iff] using hstop1 a ha
  · intro k hk a ha
    simpa [List.mem_inter_iff] using hk2 k hk a ha
  · intro a ha
    simpa [List.mem_inter_iff] using hstop2 a ha
  · rw [List.countP_append, List.countP_reverse]
    have e1 : (loopB1 (p1 ∩ p2) p1.reverse).countP (fun a => decide (a ∈ p1 ∧ a ∈ p2))
        = (loopB1 (p1 ∩ p2) p1.reverse).countP (fun a => decide (a ∈ p1 ∩ p2)) :=
      List.countP_congr (fun a _ => by simp [List.mem_inter_iff])
    have e2 : (loopB2 (p1 ∩ p2) p2.reverse).countP (fun a => decide (a ∈ p1 ∧ a ∈ p2))
        = (loopB2 (p1 ∩ p2) p2.reverse).countP (fun a => decide (a ∈ p1 ∩ p2)) :=
      List.countP_congr (fun a _ => by simp [List.mem_inter_iff])
    rw [e1, e2, hc1, hc2]

/-- C7: when the two ancestor chains share no node (in particular when
either selector matched nothing), `Between.apply` is not an error: both
scan loops exhaust their chains and it still emits exactly one feature
over reverse(p1) followed by all of p2. -/
theorem between_no_common_ancestor {α : Type} [DecidableEq α] [ToString α]
    (f1 f2 : FeatureTemplate) (root : Root α) (p1 p2 : List α)
    (hp1 : p1 = root (f1.xpath ++ "/ancestor::node"))
    (hp2 : p2 = root (f2.xpath ++ "/ancestor::node"))
    (hdisj : ∀ a, a ∈ p1 → a ∉ p2) :
    (Between.init f1 f2).apply root
      = [featStr (Between.init f1 f2).label (p1.reverse ++ p2)] := by
  have hempty : ∀ a, a ∉ p1 ∩ p2 := fun a ha =>
    hdisj a (List.mem_inter_iff.mp ha).1 (List.mem_inter_iff.mp ha).2
  have h1 : loopB1 (p1 ∩ p2) p1.reverse = p1.reverse :=
    loopB1_all _ _ (fun a _ => hempty a)
  have h2 : loopB2 (p1 ∩ p2) p2.reverse = p2.reverse :=
    loopB2_all _ _ (fun a _ => hempty a)
  subst hp1
  subst hp2
  simp only [Between.apply, Between.init, h1, h2, List.reverse_reverse]

/-- Witness for C1: on the concrete tree `rootW` the two chains
[0, 1, 3] and [0, 1, 4] meet at node 1, and the emitted path crosses it
exactly once. -/
theorem between_apply_lca_once_witness :
    ∃ b1 b2 i j,
      (Between.init (Mention "1") (Mention "2")).apply rootW
        = [featStr (Between.init (Mention "1") (Mention "2")).label (b1 ++ b2.reverse)] ∧
      i < ([0, 1, 3] : List Nat).reverse.length ∧
      b1 = ([0, 1, 3] : List Nat).reverse.take (i + 1) ∧
      (∀ k, k < i → ∀ a, ([0, 1, 3] : List Nat).reverse[k]? = some a →
         ¬(a ∈ ([0, 1, 3] : List Nat) ∧ a ∈ ([0, 1, 4] : List Nat))) ∧
      (∀ a, ([0, 1, 3] : List Nat).reverse[i]? = some a →
         a ∈ ([0, 1, 3] : List Nat) ∧ a ∈ ([0, 1, 4] : List Nat)) ∧
      j < ([0, 1, 4] : List Nat).reverse.length ∧
      b2 = ([0, 1, 4] : List Nat).reverse.take j ∧
      (∀ k, k < j → ∀ a, ([0, 1, 4] : List Nat).reverse[k]? = some a →
         ¬(a ∈ ([0, 1, 3] : List Nat) ∧ a ∈ ([0, 1, 4] : List Nat))) ∧
      (∀ a, ([0, 1, 4] : List Nat).reverse[j]? = some a →
         a ∈ ([0, 1, 3] : List Nat) ∧ a ∈ ([0, 1, 4] : List Nat)) ∧
      (b1 ++ b2.reverse).countP
        (fun a => decide (a ∈ ([0, 1, 3] : List Nat) ∧ a ∈ ([0, 1, 4] : List Nat))) = 1 :=
  between_apply_lca_once (Mention "1") (Mention "2") rootW [0, 1, 3] [0, 1, 4]
    rfl rfl ⟨1, by decide⟩

/-- Witness for C7: on the concrete tree `rootW2` the chains [1, 2] and
[3, 4] are disjoint and the single emitted path is reverse([1, 2])
followed by [3, 4]. -/
theorem between_no_common_ancestor_witness :
    (Between.init (Mention "1") (Mention "2")).apply rootW2
      = [featStr (Between.init (Mention "1") (Mention "2")).label
          (([1, 2] : List Nat).reverse ++ [3, 4])] :=
  between_no_common_ancestor (Mention "1") (Mention "2") rootW2 [1, 2] [3, 4]
    rfl rfl (by decide)

end treedlib
